import Mathlib

/-!
Verification development for the unopim-mcp authenticated API-access core.

The definitions below are a shallow embedding, in Lean 4, of the
TypeScript source of the repository:

* `src/src/tools/products.ts` — the schema-scope resolver
  (`getFamilyAttributeInfo`, `validateProductValues`,
  `structureProductValues`);
* `src/auth/oauth.ts` — the token lifecycle manager (`OAuthManager`);
* `src/client/unopim-client.ts` — the resilient request executor
  (`UnoPimClient.request`, `UnoPimClient.postMultipart`);
* `src/types/errors.ts` — the error classifier (`UnoPimApiError`).

JavaScript objects are embedded as association lists with unique keys,
JavaScript values as a small inductive `Value` covering the cases the
logic inspects (null, strings, numbers, booleans, opaque objects), and
asynchronous network interaction as an explicit list of per-attempt
outcomes supplied to the embedded control loops.
-/

set_option synthInstance.maxSize 1024

namespace UnoPim

/-- A JavaScript runtime value, as far as the resolver logic inspects it:
`null`, a string, a number, a boolean, or some other (opaque) object.
`undefined` is represented by absence (`Option.none` from a lookup). -/
inductive Value where
  | null : Value
  | str : String → Value
  | num : Int → Value
  | bool : Bool → Value
  | obj : Nat → Value
deriving DecidableEq, Repr

/-- JavaScript truthiness of a `Value` (used by `if (rawValues.sku)` and
`if (rawValues.categories)` in `structureProductValues`). -/
def Value.truthy : Value → Bool
  | .null => false
  | .str s => !(s == "")
  | .num n => !(n == 0)
  | .bool b => b
  | .obj _ => true

/-- A JavaScript object with `Value` fields: an association list.
JS objects have unique keys; theorems that depend on it carry an
explicit `Nodup` hypothesis on the key list. -/
abbrev Obj : Type := List (String × Value)

/-- Property read `o[k]`: `some` the stored value, `none` for `undefined`. -/
def lookup (o : Obj) (k : String) : Option Value :=
  (o.find? (fun kv => kv.1 == k)).map (fun kv => kv.2)

/-- Property write `o[k] = v`: overwrite in place if the key exists,
otherwise append a new entry (JS object insertion order). -/
def setKey (o : Obj) (k : String) (v : Value) : Obj :=
  if o.any (fun kv => kv.1 == k) then
    o.map (fun kv => if kv.1 == k then (k, v) else kv)
  else
    o ++ [(k, v)]

/-- Nested read `bags[k1]?.[k2]` on a locale- or channel-keyed bag. -/
def lookup2 (bags : List (String × Obj)) (k1 k2 : String) : Option Value :=
  match (bags.find? (fun kv => kv.1 == k1)).map (fun kv => kv.2) with
  | some bag => lookup bag k2
  | none => none

/-- Nested read `bags[k1]?.[k2]?.[k3]` on a channel-then-locale-keyed bag. -/
def lookup3 (bags : List (String × List (String × Obj))) (k1 k2 k3 : String) :
    Option Value :=
  match (bags.find? (fun kv => kv.1 == k1)).map (fun kv => kv.2) with
  | some inner => lookup2 inner k2 k3
  | none => none

/-- `AttributeMetadata` from `products.ts` (lines 14–21): per-attribute
schema snapshot fetched from the remote API. -/
structure AttributeMetadata where
  code : String
  type : String
  is_required : Bool
  value_per_locale : Bool
  value_per_channel : Bool
  validation : Option String := none
deriving DecidableEq, Repr

/-- `FamilyAttributeInfo` from `products.ts` (lines 23–31): the family
attribute set together with its derived scope partition. -/
structure FamilyAttributeInfo where
  familyCode : String
  attributes : List AttributeMetadata
  requiredAttributes : List AttributeMetadata
  commonAttributes : List AttributeMetadata
  localeAttributes : List AttributeMetadata
  channelAttributes : List AttributeMetadata
  channelLocaleAttributes : List AttributeMetadata
deriving DecidableEq, Repr

/-- The categorisation step of `getFamilyAttributeInfo`
(`products.ts` lines 617–632): given the fetched attribute list, build
the four scope subsets and the required subset by filtering. The
network-fetching prelude (lines 573–615) is outside the embedding; its
result is the `attributes` argument. -/
def categorizeFamilyAttributes (familyCode : String)
    (attributes : List AttributeMetadata) : FamilyAttributeInfo :=
  { familyCode := familyCode
    attributes := attributes
    requiredAttributes := attributes.filter (fun a => a.is_required)
    commonAttributes :=
      attributes.filter (fun a => !a.value_per_locale && !a.value_per_channel)
    localeAttributes :=
      attributes.filter (fun a => a.value_per_locale && !a.value_per_channel)
    channelAttributes :=
      attributes.filter (fun a => !a.value_per_locale && a.value_per_channel)
    channelLocaleAttributes :=
      attributes.filter (fun a => a.value_per_locale && a.value_per_channel) }

/-- One `{field, message}` entry of a `ValidationResult`. -/
structure FieldMessage where
  field : String
  message : String
deriving DecidableEq, Repr

/-- `ValidationResult` from `products.ts` (lines 33–37). -/
structure ValidationResult where
  valid : Bool
  errors : List FieldMessage
  warnings : List FieldMessage
deriving DecidableEq, Repr

/-- The scoped value tree handled by `validateProductValues` and built by
`structureProductValues`. The TypeScript passes it as a plain object;
absent keys (`values.locale_specific || {}` defaults) are `none` here.
`structureProductValues` only ever populates the single given locale and
channel keys, but validation reads arbitrary trees, so each scoped bag is
a full keyed association list. -/
structure ScopedValues where
  common : Obj := []
  locale_specific : Option (List (String × Obj)) := none
  channel_specific : Option (List (String × Obj)) := none
  channel_locale_specific : Option (List (String × List (String × Obj))) := none
  categories : Option Value := none
  associations : Option Value := none
deriving DecidableEq, Repr

/-- ASCII single-quote character, used in the diagnostic messages. -/
def sq : String := "\x27"

/-- The per-required-attribute presence test of `validateProductValues`
(`products.ts` lines 653–680, the `hasValue` computations): a common
(global) attribute must be present and neither `null` nor the empty
string; a scoped attribute only has to be different from `undefined` in
the bag selected by its classification and the given locale/channel. -/
def requiredValuePresent (values : ScopedValues) (attr : AttributeMetadata)
    (locale channel : String) : Bool :=
  if !attr.value_per_locale && !attr.value_per_channel then
    match lookup values.common attr.code with
    | some v => !(v == Value.null) && !(v == Value.str "")
    | none => false
  else if attr.value_per_locale && !attr.value_per_channel then
    (lookup2 (values.locale_specific.getD []) locale attr.code).isSome
  else if !attr.value_per_locale && attr.value_per_channel then
    (lookup2 (values.channel_specific.getD []) channel attr.code).isSome
  else
    (lookup3 (values.channel_locale_specific.getD []) channel locale attr.code).isSome

/-- The `field` path of the error pushed for a missing required attribute
(`products.ts` lines 660, 666, 672, 678). -/
def missingFieldPath (attr : AttributeMetadata) (locale channel : String) : String :=
  if !attr.value_per_locale && !attr.value_per_channel then
    "common." ++ attr.code
  else if attr.value_per_locale && !attr.value_per_channel then
    "locale_specific." ++ locale ++ "." ++ attr.code
  else if !attr.value_per_locale && attr.value_per_channel then
    "channel_specific." ++ channel ++ "." ++ attr.code
  else
    "channel_locale_specific." ++ channel ++ "." ++ locale ++ "." ++ attr.code

/-- The `message` of the error pushed for a missing required attribute
(`products.ts` lines 660, 666, 672, 678). -/
def missingMessage (attr : AttributeMetadata) (locale channel : String) : String :=
  if !attr.value_per_locale && !attr.value_per_channel then
    "Required attribute " ++ sq ++ attr.code ++ sq ++ " is missing from common values"
  else if attr.value_per_locale && !attr.value_per_channel then
    "Required attribute " ++ sq ++ attr.code ++ sq ++ " is missing for locale " ++
      sq ++ locale ++ sq
  else if !attr.value_per_locale && attr.value_per_channel then
    "Required attribute " ++ sq ++ attr.code ++ sq ++ " is missing for channel " ++
      sq ++ channel ++ sq
  else
    "Required attribute " ++ sq ++ attr.code ++ sq ++ " is missing for channel " ++
      sq ++ channel ++ sq ++ " and locale " ++ sq ++ locale ++ sq

/-- One iteration of the required-attribute loop of `validateProductValues`
(`products.ts` lines 653–681): at most one error per required attribute. -/
def requiredAttrError (values : ScopedValues) (attr : AttributeMetadata)
    (locale channel : String) : Option FieldMessage :=
  if requiredValuePresent values attr locale channel then none
  else some ⟨missingFieldPath attr locale channel, missingMessage attr locale channel⟩

/-- One iteration of the misplaced-attribute loop of `validateProductValues`
(`products.ts` lines 684–690): for a key in the common bag (other than
`sku`) that resolves to a classified non-global attribute, a warning. -/
def misplacedWarning (familyInfo : FamilyAttributeInfo) (kv : String × Value) :
    Option FieldMessage :=
  if kv.1 == "sku" then none
  else
    match familyInfo.attributes.find? (fun a => a.code == kv.1) with
    | some attr =>
        if attr.value_per_locale || attr.value_per_channel then
          some ⟨"common." ++ kv.1,
            "Attribute " ++ sq ++ kv.1 ++ sq ++ " should not be in " ++ sq ++
              "common" ++ sq ++ " - it requires locale/channel scope"⟩
        else none
    | none => none

/-- `validateProductValues` (`products.ts` lines 638–697): one error per
missing required attribute, one warning per misplaced common value;
`valid` iff the error list is empty. The two `for` loops pushing to
mutable arrays are embedded as `filterMap` over the iterated lists. -/
def validateProductValues (values : ScopedValues) (familyInfo : FamilyAttributeInfo)
    (locale channel : String) : ValidationResult :=
  let errors := familyInfo.requiredAttributes.filterMap
    (fun attr => requiredAttrError values attr locale channel)
  let warnings := values.common.filterMap (misplacedWarning familyInfo)
  { valid := errors.length == 0
    errors := errors
    warnings := warnings }

/-- Accumulator of the routing loop of `structureProductValues`: the four
bags being filled. In the TypeScript, `localeSpecific` is the object
`{ [locale]: bag }`, `channelSpecific` is `{ [channel]: bag }` and
`channelLocaleSpecific` is `{ [channel]: { [locale]: bag } }`; only the
inner bag at those fixed keys is ever written, so the accumulator keeps
just the four inner bags. -/
structure RouteAcc where
  common : Obj := []
  localeBag : Obj := []
  channelBag : Obj := []
  channelLocaleBag : Obj := []
deriving DecidableEq, Repr

/-- One iteration of the routing loop of `structureProductValues`
(`products.ts` lines 715–737): reserved keys skipped, unknown keys to the
common bag, classified keys to the bag of their (value_per_locale,
value_per_channel) classification. -/
def routeStep (attributes : List AttributeMetadata) (acc : RouteAcc)
    (k : String) (v : Value) : RouteAcc :=
  if k == "categories" || k == "associations" then acc
  else
    match attributes.find? (fun a => a.code == k) with
    | none => { acc with common := setKey acc.common k v }
    | some attr =>
        if !attr.value_per_locale && !attr.value_per_channel then
          { acc with common := setKey acc.common k v }
        else if attr.value_per_locale && !attr.value_per_channel then
          { acc with localeBag := setKey acc.localeBag k v }
        else if !attr.value_per_locale && attr.value_per_channel then
          { acc with channelBag := setKey acc.channelBag k v }
        else
          { acc with channelLocaleBag := setKey acc.channelLocaleBag k v }

/-- The whole routing loop over `Object.entries(rawValues)`. -/
def routeValues (attributes : List AttributeMetadata) (acc : RouteAcc) :
    Obj → RouteAcc
  | [] => acc
  | kv :: rest => routeValues attributes (routeStep attributes acc kv.1 kv.2) rest

/-- `structureProductValues` (`products.ts` lines 703–763): route every
entry of the flat input into the four bags, force a truthy `sku` into the
common bag, then assemble the result object (scoped bags included only
when non-empty, `categories`/`associations` passed through when truthy). -/
def structureProductValues (rawValues : Obj) (familyInfo : FamilyAttributeInfo)
    (locale channel : String) : ScopedValues :=
  let routed := routeValues familyInfo.attributes {} rawValues
  let common :=
    match lookup rawValues "sku" with
    | some v => if v.truthy then setKey routed.common "sku" v else routed.common
    | none => routed.common
  { common := common
    locale_specific :=
      if routed.localeBag.length > 0 then some [(locale, routed.localeBag)] else none
    channel_specific :=
      if routed.channelBag.length > 0 then some [(channel, routed.channelBag)] else none
    channel_locale_specific :=
      if routed.channelLocaleBag.length > 0 then
        some [(channel, [(locale, routed.channelLocaleBag)])]
      else none
    categories :=
      match lookup rawValues "categories" with
      | some v => if v.truthy then some v else none
      | none => none
    associations :=
      match lookup rawValues "associations" with
      | some v => if v.truthy then some v else none
      | none => none }

/-- `ErrorCode` from `src/types/errors.ts` (lines 5–14): the closed error
taxonomy. -/
inductive ErrorCode where
  | AUTH_FAILED
  | TOKEN_EXPIRED
  | NOT_FOUND
  | VALIDATION_ERROR
  | DUPLICATE_CODE
  | DEPENDENCY_MISSING
  | RATE_LIMITED
  | SERVER_ERROR
  | NETWORK_ERROR
deriving DecidableEq, Repr

/-- An exception thrown by the client or OAuth code: either a classified
`UnoPimApiError` (code, retry-eligibility bit, optional HTTP status;
the human-readable `message`/`details` payloads are elided), or an
unclassified plain `Error` with its message, or a raw rejection from
`fetch`, or a `SyntaxError` from `response.json()`. -/
inductive Thrown where
  | apiError : ErrorCode → Bool → Option Nat → Thrown
  | plainError : String → Thrown
  | rawFetchError : Nat → Thrown
  | jsonParseError : Thrown
deriving DecidableEq, Repr

/-- Whether a thrown value is a classified `UnoPimApiError`. -/
def Thrown.isClassified : Thrown → Bool
  | .apiError _ _ _ => true
  | _ => false

/-- The `retryPossible` flag the outer catch of `UnoPimClient.request`
reads from a caught `UnoPimApiError`. -/
def Thrown.retryPossible : Thrown → Bool
  | .apiError _ r _ => r
  | _ => false

/-- `UnoPimApiError.fromResponse` (`src/types/errors.ts` lines 56–128):
the HTTP-status to error-code mapping, with its retry-eligibility bit and
the recorded status code. -/
def fromResponse (status : Nat) : Thrown :=
  if status == 401 then .apiError .AUTH_FAILED true (some status)
  else if status == 404 then .apiError .NOT_FOUND false (some status)
  else if status == 409 then .apiError .DUPLICATE_CODE false (some status)
  else if status == 422 then .apiError .VALIDATION_ERROR false (some status)
  else if status == 429 then .apiError .RATE_LIMITED true (some status)
  else if status == 500 || status == 502 || status == 503 || status == 504 then
    .apiError .SERVER_ERROR true (some status)
  else .apiError .SERVER_ERROR (decide (500 ≤ status)) (some status)

/-- `UnoPimApiError.networkError` (`src/types/errors.ts` lines 133–140). -/
def networkError : Thrown := .apiError .NETWORK_ERROR true none

/-- What one attempt of `UnoPimClient.request` (or `postMultipart`)
observes from its environment: the token manager throwing, `fetch`
rejecting, the timeout firing (`AbortError`), or an HTTP response with a
status and a JSON body that parses to `some` payload or fails to parse. -/
inductive AttemptEvent where
  | authThrow : String → AttemptEvent
  | fetchReject : Nat → AttemptEvent
  | abortTimeout : AttemptEvent
  | response : Nat → Option Nat → AttemptEvent
deriving DecidableEq, Repr

/-- `MAX_RETRIES` of both `UnoPimClient` and `OAuthManager`. -/
def MAX_RETRIES : Nat := 3

/-- `RETRY_DELAYS` of both `UnoPimClient` and `OAuthManager`
(milliseconds slept before retry attempts). -/
def RETRY_DELAYS : List Nat := [0, 1000, 3000]

instance {ε α : Type} [DecidableEq ε] [DecidableEq α] : DecidableEq (Except ε α) :=
  fun x y =>
    match x, y with
    | .ok a, .ok b =>
        if h : a = b then .isTrue (by rw [h]) else .isFalse (by simp [h])
    | .ok _, .error _ => .isFalse (by simp)
    | .error _, .ok _ => .isFalse (by simp)
    | .error e, .error f =>
        if h : e = f then .isTrue (by rw [h]) else .isFalse (by simp [h])

/-- Outcome of one loop iteration of `UnoPimClient.request`: either the
call completes (returning a parsed payload, `none` for a 204, or
throwing), or the loop continues, having invalidated the cached token
when the flag is set. -/
inductive StepOutcome where
  | done : Except Thrown (Option Nat) → StepOutcome
  | retry : Bool → StepOutcome
deriving DecidableEq, Repr

/-- One iteration of `UnoPimClient.request` (`unopim-client.ts` lines
92–191) at 0-based index `attempt`, observing `event`:

* a raw throw (auth failure, fetch rejection, JSON parse failure) reaches
  the outer catch, which retries while attempts remain and otherwise
  wraps it via `UnoPimApiError.networkError`;
* an `AbortError` is rewrapped as a retryable `NETWORK_ERROR`
  `UnoPimApiError`, which the outer catch retries while attempts remain;
* a 401 response with attempts remaining clears the token cache and
  retries;
* any other non-2xx response is classified via `fromResponse` and
  retried only while retryable with attempts remaining, otherwise thrown
  (the outer catch rethrows it unchanged);
* a 204 yields the empty result; any other 2xx yields the parsed body. -/
def requestStep (event : AttemptEvent) (attempt : Nat) : StepOutcome :=
  match event with
  | .authThrow _ =>
      if attempt + 1 < MAX_RETRIES then .retry false
      else .done (.error networkError)
  | .fetchReject _ =>
      if attempt + 1 < MAX_RETRIES then .retry false
      else .done (.error networkError)
  | .abortTimeout =>
      if attempt + 1 < MAX_RETRIES then .retry false
      else .done (.error (.apiError .NETWORK_ERROR true none))
  | .response status json =>
      if status == 401 && attempt + 1 < MAX_RETRIES then .retry true
      else if !(200 ≤ status && status < 300) then
        let e := fromResponse status
        if e.retryPossible && attempt + 1 < MAX_RETRIES then .retry false
        else .done (.error e)
      else if status == 204 then .done (.ok none)
      else
        match json with
        | some b => .done (.ok (some b))
        | none =>
            if attempt + 1 < MAX_RETRIES then .retry false
            else .done (.error networkError)

/-- Observable result of one logical `request` call: the value returned
or error thrown, the number of `clearCache()` calls made on the token
manager, and the number of attempts actually performed. -/
structure ExecResult where
  result : Except Thrown (Option Nat)
  clears : Nat
  attempts : Nat
deriving DecidableEq, Repr

/-- The retry loop of `UnoPimClient.request`, one `AttemptEvent` consumed
per iteration. The fall-through after the loop (line 195) throws the
non-retryable `SERVER_ERROR` "Max retries exceeded"; it is also the value
used when the event list is exhausted. -/
def requestLoop : List AttemptEvent → Nat → Nat → ExecResult
  | [], attempt, clears =>
      ⟨.error (.apiError .SERVER_ERROR false none), clears, attempt⟩
  | e :: rest, attempt, clears =>
      if attempt < MAX_RETRIES then
        match requestStep e attempt with
        | .done r => ⟨r, clears, attempt + 1⟩
        | .retry cleared =>
            requestLoop rest (attempt + 1) (clears + (if cleared then 1 else 0))
      else ⟨.error (.apiError .SERVER_ERROR false none), clears, attempt⟩

/-- `UnoPimClient.request` as a function of the per-attempt events. -/
def request (events : List AttemptEvent) : ExecResult :=
  requestLoop events 0 0

/-- One iteration of `UnoPimClient.postMultipart` (`unopim-client.ts`
lines 247–279): a 401 with attempts remaining clears the cache and
retries; any other response has its body parsed and returned regardless
of status; every thrown error (raw or parse failure) is retried while
attempts remain and otherwise rethrown UNWRAPPED. `postMultipart`
installs no timeout, so an `abortTimeout` event is treated as a raw
fetch rejection. -/
def multipartStep (event : AttemptEvent) (attempt : Nat) : StepOutcome :=
  match event with
  | .authThrow m =>
      if attempt + 1 < MAX_RETRIES then .retry false
      else .done (.error (.plainError m))
  | .fetchReject t =>
      if attempt + 1 < MAX_RETRIES then .retry false
      else .done (.error (.rawFetchError t))
  | .abortTimeout =>
      if attempt + 1 < MAX_RETRIES then .retry false
      else .done (.error (.rawFetchError 0))
  | .response status json =>
      if status == 401 && attempt + 1 < MAX_RETRIES then .retry true
      else
        match json with
        | some b => .done (.ok (some b))
        | none =>
            if attempt + 1 < MAX_RETRIES then .retry false
            else .done (.error .jsonParseError)

/-- The retry loop of `UnoPimClient.postMultipart`; the fall-through
after the loop (line 282) throws the plain `Error`
"Max retries exceeded for multipart upload". -/
def multipartLoop : List AttemptEvent → Nat → Nat → ExecResult
  | [], attempt, clears =>
      ⟨.error (.plainError "Max retries exceeded for multipart upload"), clears, attempt⟩
  | e :: rest, attempt, clears =>
      if attempt < MAX_RETRIES then
        match multipartStep e attempt with
        | .done r => ⟨r, clears, attempt + 1⟩
        | .retry cleared =>
            multipartLoop rest (attempt + 1) (clears + (if cleared then 1 else 0))
      else ⟨.error (.plainError "Max retries exceeded for multipart upload"), clears, attempt⟩

/-- `UnoPimClient.postMultipart` as a function of the per-attempt events. -/
def postMultipart (events : List AttemptEvent) : ExecResult :=
  multipartLoop events 0 0

/-- `TokenResponse` (`src/types/oauth.ts`): the token endpoint's 200
payload. -/
structure TokenResponse where
  access_token : String
  refresh_token : String
  expires_in : Int
deriving DecidableEq, Repr

/-- `TokenCache` (`src/types/oauth.ts`): the single cached token record,
with its absolute expiry instant in milliseconds. -/
structure TokenCache where
  accessToken : String
  refreshToken : String
  expiresAt : Int
deriving DecidableEq, Repr

/-- `REFRESH_BUFFER_MS` of `OAuthManager` (oauth.ts line 87): 5 minutes. -/
def REFRESH_BUFFER_MS : Int := 5 * 60 * 1000

/-- What one attempt of the token-endpoint loop observes: a 200 with a
`TokenResponse`, or a failure (a non-OK response or a thrown network
error, both of which land in the same catch). -/
inductive TokenAttempt where
  | success : TokenResponse → TokenAttempt
  | failure : TokenAttempt
deriving DecidableEq, Repr

/-- Observable result of `acquireToken`/`refreshToken`: the token
response obtained or error thrown, the number of token-endpoint fetches
made, and the sequence of sleeps performed (milliseconds). -/
structure TokenLoopResult where
  result : Except Thrown TokenResponse
  fetches : Nat
  delays : List Nat
deriving DecidableEq, Repr

/-- The retry loop shared (textually duplicated in the source) by
`OAuthManager.acquireToken` (oauth.ts lines 142–177) and
`OAuthManager.refreshToken` (lines 197–232): before every attempt but
the first, sleep `RETRY_DELAYS[attempt]`; on success cache and return;
on the last failure throw a plain `Error` with the given message
(the source message interpolates the underlying error; elided here). -/
def tokenRequestLoop (failMsg : String) :
    List TokenAttempt → Nat → Nat → List Nat → TokenLoopResult
  | [], _, fetches, delays => ⟨.error (.plainError failMsg), fetches, delays⟩
  | o :: rest, attempt, fetches, delays =>
      let delays := if attempt > 0 then delays ++ [RETRY_DELAYS.getD attempt 0] else delays
      match o with
      | .success r => ⟨.ok r, fetches + 1, delays⟩
      | .failure =>
          if attempt + 1 < MAX_RETRIES then
            tokenRequestLoop failMsg rest (attempt + 1) (fetches + 1) delays
          else ⟨.error (.plainError failMsg), fetches + 1, delays⟩

/-- Failure message of `acquireToken` after exhausting its attempts
(oauth.ts lines 170–172, interpolated cause elided). -/
def acquireFailMsg : String := "Failed to acquire OAuth token after 3 attempts"

/-- Failure message of `refreshToken` after exhausting its attempts
(oauth.ts lines 225–227, interpolated cause elided). -/
def refreshFailMsg : String := "Failed to refresh token after 3 attempts"

/-- `OAuthManager.cacheToken` (oauth.ts lines 237–245): absolute expiry
computed from the current instant and `expires_in` seconds. -/
def cacheToken (now : Int) (r : TokenResponse) : TokenCache :=
  { accessToken := r.access_token
    refreshToken := r.refresh_token
    expiresAt := now + r.expires_in * 1000 }

/-- `OAuthManager.isTokenValid` (oauth.ts lines 250–255). -/
def isTokenValid (cache : Option TokenCache) (now : Int) : Bool :=
  match cache with
  | none => false
  | some tc => decide (now < tc.expiresAt)

/-- `OAuthManager.shouldRefresh` (oauth.ts lines 260–265). -/
def shouldRefresh (cache : Option TokenCache) (now : Int) : Bool :=
  match cache with
  | none => false
  | some tc => decide (now ≥ tc.expiresAt - REFRESH_BUFFER_MS)

/-- Network environment of one `getAccessToken` call: the token-endpoint
attempt outcomes that a refresh loop, respectively an acquire loop, would
observe. -/
structure OAuthEnv where
  refreshAttempts : List TokenAttempt
  acquireAttempts : List TokenAttempt
deriving DecidableEq, Repr

/-- Observable result of `OAuthManager.getAccessToken`: the access token
returned or error thrown, the token cache afterwards, and the total
number of token-endpoint fetches made. -/
structure GetTokenResult where
  result : Except Thrown String
  cache : Option TokenCache
  fetches : Nat
deriving DecidableEq, Repr

/-- `OAuthManager.getAccessToken` (oauth.ts lines 103–125):

* a cached token that is still valid (`now < expiresAt`) is returned
  immediately, with no network call;
* otherwise, with a cache present, when `shouldRefresh` holds the manager
  runs the refresh loop, falling back to the acquire loop if the whole
  refresh loop fails;
* otherwise it runs the acquire loop. A loop failure propagates to the
  caller; the cache is replaced only by a successful loop. -/
def getAccessToken (cache : Option TokenCache) (now : Int) (env : OAuthEnv) :
    GetTokenResult :=
  if cache.isSome && isTokenValid cache now then
    ⟨.ok ((cache.getD ⟨"", "", 0⟩).accessToken), cache, 0⟩
  else if cache.isSome && shouldRefresh cache now then
    let r := tokenRequestLoop refreshFailMsg env.refreshAttempts 0 0 []
    match r.result with
    | .ok resp =>
        let tc := cacheToken now resp
        ⟨.ok tc.accessToken, some tc, r.fetches⟩
    | .error _ =>
        let a := tokenRequestLoop acquireFailMsg env.acquireAttempts 0 0 []
        match a.result with
        | .ok resp =>
            let tc := cacheToken now resp
            ⟨.ok tc.accessToken, some tc, r.fetches + a.fetches⟩
        | .error e => ⟨.error e, cache, r.fetches + a.fetches⟩
  else
    let a := tokenRequestLoop acquireFailMsg env.acquireAttempts 0 0 []
    match a.result with
    | .ok resp =>
        let tc := cacheToken now resp
        ⟨.ok tc.accessToken, some tc, a.fetches⟩
    | .error e => ⟨.error e, cache, a.fetches⟩

/-- Whether a thrown value is a `UnoPimApiError` classified `AUTH_FAILED`. -/
def Thrown.isAuthFailed : Thrown → Bool
  | .apiError .AUTH_FAILED _ _ => true
  | _ => false

/-- The four storage scopes of the data model. -/
inductive Scope where
  | common
  | localeScope
  | channelScope
  | channelLocaleScope
deriving DecidableEq, Repr

/-- The bag of a routing accumulator selected by scope. -/
def RouteAcc.bag (acc : RouteAcc) : Scope → Obj
  | .common => acc.common
  | .localeScope => acc.localeBag
  | .channelScope => acc.channelBag
  | .channelLocaleScope => acc.channelLocaleBag

/-- Where the routing loop of `structureProductValues` sends a given key:
`none` for the reserved pass-through keys, otherwise the scope of the
classification (unknown keys default to the common bag). Read off
`routeStep`. -/
def routeTargetScope (attributes : List AttributeMetadata) (k : String) :
    Option Scope :=
  if k == "categories" || k == "associations" then none
  else some (match attributes.find? (fun a => a.code == k) with
    | none => .common
    | some attr =>
        if !attr.value_per_locale && !attr.value_per_channel then .common
        else if attr.value_per_locale && !attr.value_per_channel then .localeScope
        else if !attr.value_per_locale && attr.value_per_channel then .channelScope
        else .channelLocaleScope)

/-- Modelled from the spec: the "flattening inverse" of the round-trip
property — the union of the global bag, the locale bag at the given
locale, the channel bag at the given channel, and the channel-locale bag
at the given channel and locale. The source defines no such function;
this is the comparison point for the round-trip claim. -/
def flattenScoped (sv : ScopedValues) (locale channel k : String) : Option Value :=
  match lookup sv.common k with
  | some v => some v
  | none =>
    match lookup2 (sv.locale_specific.getD []) locale k with
    | some v => some v
    | none =>
      match lookup2 (sv.channel_specific.getD []) channel k with
      | some v => some v
      | none => lookup3 (sv.channel_locale_specific.getD []) channel locale k

/-! ## Helper lemmas -/

theorem lookup_cons_match {x : String × Value} {xs : Obj} {k : String}
    (h : (x.1 == k) = true) : lookup (x :: xs) k = some x.2 := by
  unfold lookup
  rw [@List.find?_cons_of_pos _ (fun kv => kv.1 == k) x xs h]
  rfl

theorem lookup_cons_skip {x : String × Value} {xs : Obj} {k : String}
    (h : (x.1 == k) = false) : lookup (x :: xs) k = lookup xs k := by
  unfold lookup
  rw [@List.find?_cons_of_neg _ (fun kv => kv.1 == k) x xs (by simp [h])]

theorem lookup_map_overwrite (o : Obj) (k k' : String) (v : Value) :
    lookup (o.map fun kv => if kv.1 == k then (k, v) else kv) k'
      = if k' = k then (if o.any (fun kv => kv.1 == k) then some v else none)
        else lookup o k' := by
  induction o with
  | nil => by_cases h : k' = k <;> simp [lookup, h]
  | cons x xs ih =>
    simp only [List.map_cons]
    by_cases hx : (x.1 == k) = true
    · have hx1 : x.1 = k := beq_iff_eq.mp hx
      rw [if_pos hx]
      by_cases hk : k' = k
      · subst hk
        rw [lookup_cons_match (by simp)]
        simp [List.any_cons, hx]
      · have hkb : (k == k') = false := by
          cases hb : (k == k') with
          | false => rfl
          | true => exact absurd (beq_iff_eq.mp hb).symm hk
        have hxb : (x.1 == k') = false := by
          cases hb : (x.1 == k') with
          | false => rfl
          | true => exact absurd ((beq_iff_eq.mp hb) ▸ hx1) hk
        rw [lookup_cons_skip hkb, ih, if_neg hk, if_neg hk, lookup_cons_skip hxb]
    · have hxf : (x.1 == k) = false := by
        cases hb : (x.1 == k) with
        | false => rfl
        | true => exact absurd hb hx
      rw [if_neg hx]
      by_cases hx' : (x.1 == k') = true
      · have hk : ¬ k' = k := by
          intro h
          rw [h] at hx'
          exact hx hx'
        rw [lookup_cons_match hx', if_neg hk, lookup_cons_match hx']
      · have hx'f : (x.1 == k') = false := by
          cases hb : (x.1 == k') with
          | false => rfl
          | true => exact absurd hb hx'
        rw [lookup_cons_skip hx'f, ih]
        by_cases hk : k' = k
        · subst hk
          rw [if_pos rfl, if_pos rfl, List.any_cons, hxf, Bool.false_or]
        · rw [if_neg hk, if_neg hk, lookup_cons_skip hx'f]

theorem lookup_eq_none_of_not_any (o : Obj) (k : String)
    (h : o.any (fun kv => kv.1 == k) = false) : lookup o k = none := by
  induction o with
  | nil => rfl
  | cons x xs ih =>
    rw [List.any_cons, Bool.or_eq_false_iff] at h
    rw [lookup_cons_skip h.1]
    exact ih h.2

theorem lookup_append_single (o : Obj) (k k' : String) (v : Value) :
    lookup (o ++ [(k, v)]) k'
      = match lookup o k' with
        | some w => some w
        | none => if k' = k then some v else none := by
  unfold lookup
  rw [List.find?_append]
  cases hf : o.find? (fun kv => kv.1 == k') with
  | some w => simp [hf]
  | none =>
      by_cases hk : k' = k
      · subst hk
        simp [hf]
      · have hkb : (k == k') = false := by
          cases hb : (k == k') with
          | false => rfl
          | true => exact absurd (beq_iff_eq.mp hb).symm hk
        simp [hf, hkb, hk]

/-- JS property write then read: reading the written key gives the new
value, any other key is unchanged. -/
theorem lookup_setKey (o : Obj) (k k' : String) (v : Value) :
    lookup (setKey o k v) k' = if k' = k then some v else lookup o k' := by
  unfold setKey
  by_cases ha : o.any (fun kv => kv.1 == k)
  · simp only [ha, if_true, lookup_map_overwrite]
  · have ha' : o.any (fun kv => kv.1 == k) = false := by
      cases hb : o.any (fun kv => kv.1 == k) with
      | false => rfl
      | true => exact absurd hb ha
    simp only [ha', Bool.false_eq_true, if_false, lookup_append_single]
    by_cases hk : k' = k
    · rw [hk, lookup_eq_none_of_not_any o k ha']
    · cases hl : lookup o k' <;> simp [hk]

theorem filterMap_ite_eq_filter_map {α β : Type} (p : α → Bool) (g : α → β)
    (l : List α) :
    (l.filterMap fun a => if p a then none else some (g a))
      = (l.filter fun a => !p a).map g := by
  induction l with
  | nil => rfl
  | cons x xs ih =>
    by_cases h : p x <;> simp [List.filterMap_cons, List.filter_cons, h, ih]

theorem scope_filter_length_sum (attrs : List AttributeMetadata) :
    (attrs.filter fun a => !a.value_per_locale && !a.value_per_channel).length
    + (attrs.filter fun a => a.value_per_locale && !a.value_per_channel).length
    + (attrs.filter fun a => !a.value_per_locale && a.value_per_channel).length
    + (attrs.filter fun a => a.value_per_locale && a.value_per_channel).length
    = attrs.length := by
  induction attrs with
  | nil => rfl
  | cons x xs ih =>
    cases hl : x.value_per_locale <;> cases hc : x.value_per_channel <;>
      simp [List.filter_cons, hl, hc] <;> omega

/-! ## C1 — exhaustive scope partition -/

/-- C1. The pair (value_per_locale, value_per_channel) determines exactly
one of the four scope bags: in the aggregate built by
`getFamilyAttributeInfo` an attribute belongs to `commonAttributes`,
`localeAttributes`, `channelAttributes` or `channelLocaleAttributes`
exactly according to its two booleans, the four subset sizes add up to
the whole attribute set (so the subsets partition it), and
`structureProductValues` routes the value of any classified,
non-reserved, non-sku attribute into exactly the bag of its
classification — in particular both booleans false means the global
(common) bag. -/
theorem scope_partition_and_routing :
    (∀ (fc : String) (attrs : List AttributeMetadata) (a : AttributeMetadata),
      a ∈ attrs →
      ((a ∈ (categorizeFamilyAttributes fc attrs).commonAttributes
          ↔ a.value_per_locale = false ∧ a.value_per_channel = false)
        ∧ (a ∈ (categorizeFamilyAttributes fc attrs).localeAttributes
          ↔ a.value_per_locale = true ∧ a.value_per_channel = false)
        ∧ (a ∈ (categorizeFamilyAttributes fc attrs).channelAttributes
          ↔ a.value_per_locale = false ∧ a.value_per_channel = true)
        ∧ (a ∈ (categorizeFamilyAttributes fc attrs).channelLocaleAttributes
          ↔ a.value_per_locale = true ∧ a.value_per_channel = true)))
    ∧ (∀ (fc : String) (attrs : List AttributeMetadata),
        (categorizeFamilyAttributes fc attrs).commonAttributes.length
        + (categorizeFamilyAttributes fc attrs).localeAttributes.length
        + (categorizeFamilyAttributes fc attrs).channelAttributes.length
        + (categorizeFamilyAttributes fc attrs).channelLocaleAttributes.length
        = attrs.length)
    ∧ (∀ (fi : FamilyAttributeInfo) (attr : AttributeMetadata) (v : Value)
        (locale channel : String),
        fi.attributes.find? (fun x => x.code == attr.code) = some attr →
        attr.code ≠ "sku" → attr.code ≠ "categories" → attr.code ≠ "associations" →
        (lookup (structureProductValues [(attr.code, v)] fi locale channel).common
            attr.code
          = if !attr.value_per_locale && !attr.value_per_channel then some v else none)
        ∧ (lookup2
            ((structureProductValues [(attr.code, v)] fi locale channel).locale_specific.getD [])
            locale attr.code
          = if attr.value_per_locale && !attr.value_per_channel then some v else none)
        ∧ (lookup2
            ((structureProductValues [(attr.code, v)] fi locale channel).channel_specific.getD [])
            channel attr.code
          = if !attr.value_per_locale && attr.value_per_channel then some v else none)
        ∧ (lookup3
            ((structureProductValues [(attr.code, v)] fi locale channel).channel_locale_specific.getD [])
            channel locale attr.code
          = if attr.value_per_locale && attr.value_per_channel then some v else none)) := by
  refine ⟨?_, ?_, ?_⟩
  · intro fc attrs a ha
    refine ⟨?_, ?_, ?_, ?_⟩ <;>
      simp [categorizeFamilyAttributes, List.mem_filter, ha]
  · intro fc attrs
    simpa [categorizeFamilyAttributes] using scope_filter_length_sum attrs
  · intro fi attr v locale channel hfind hsku hcat hassoc
    have hskub : (attr.code == "sku") = false := by
      cases hb : attr.code == "sku"
      · rfl
      · exact absurd (by simpa using hb) hsku
    have hcatb : (attr.code == "categories") = false := by
      cases hb : attr.code == "categories"
      · rfl
      · exact absurd (by simpa using hb) hcat
    have hassocb : (attr.code == "associations") = false := by
      cases hb : attr.code == "associations"
      · rfl
      · exact absurd (by simpa using hb) hassoc
    cases hl : attr.value_per_locale <;> cases hc : attr.value_per_channel <;>
      simp [structureProductValues, routeValues, routeStep, hfind, hl, hc,
        lookup, lookup2, lookup3, setKey, hskub, hcatb, hassocb]

/-- C1 witness: a concrete family with one attribute of each scope, and a
concrete routing of a channel-locale attribute. -/
theorem scope_partition_and_routing_witness :
    ((⟨"name", "text", true, true, true, none⟩ : AttributeMetadata)
        ∈ (categorizeFamilyAttributes "tshirt"
            [⟨"name", "text", true, true, true, none⟩]).channelLocaleAttributes
      ↔ (true = true ∧ true = true))
    ∧ lookup3
        ((structureProductValues [("name", Value.str "x")]
            (categorizeFamilyAttributes "tshirt"
              [⟨"name", "text", true, true, true, none⟩])
            "en_US" "default").channel_locale_specific.getD [])
        "default" "en_US" "name"
      = some (Value.str "x") := by
  constructor
  · have h := (scope_partition_and_routing.1 "tshirt"
      [⟨"name", "text", true, true, true, none⟩]
      ⟨"name", "text", true, true, true, none⟩ (by simp)).2.2.2
    simpa using h
  · have h := (scope_partition_and_routing.2.2
      (categorizeFamilyAttributes "tshirt" [⟨"name", "text", true, true, true, none⟩])
      ⟨"name", "text", true, true, true, none⟩ (Value.str "x") "en_US" "default"
      (by decide) (by decide) (by decide) (by decide)).2.2.2
    simpa using h

/-- Shared characterisation of the error list of `validateProductValues`:
one entry per required attribute whose classified location is not
populated, carrying that attribute's missing-field path and message. -/
theorem validate_errors_eq (values : ScopedValues) (fi : FamilyAttributeInfo)
    (locale channel : String) :
    (validateProductValues values fi locale channel).errors
      = (fi.requiredAttributes.filter
          fun a => !requiredValuePresent values a locale channel).map
          (fun a => ⟨missingFieldPath a locale channel, missingMessage a locale channel⟩) := by
  show (fi.requiredAttributes.filterMap
      fun attr => requiredAttrError values attr locale channel) = _
  simpa [requiredAttrError] using
    filterMap_ite_eq_filter_map
      (fun a => requiredValuePresent values a locale channel)
      (fun a =>
        (⟨missingFieldPath a locale channel, missingMessage a locale channel⟩ : FieldMessage))
      fi.requiredAttributes

/-! ## C5 — one error per missing required attribute -/

/-- C5. `validateProductValues` returns zero errors exactly when every
required attribute's classified location is populated, and otherwise
exactly one error per missing required attribute — no duplicates, no
merging — each error carrying the exact missing path
(`common.<code>`, `locale_specific.<locale>.<code>`,
`channel_specific.<channel>.<code>`, or
`channel_locale_specific.<channel>.<locale>.<code>`). Presence is the
source's own test (`requiredValuePresent`). -/
theorem validate_one_error_per_missing_required :
    (∀ (values : ScopedValues) (fi : FamilyAttributeInfo) (locale channel : String),
      ((validateProductValues values fi locale channel).errors.map FieldMessage.field
        = (fi.requiredAttributes.filter
            fun a => !requiredValuePresent values a locale channel).map
            (fun a => missingFieldPath a locale channel))
      ∧ ((validateProductValues values fi locale channel).errors.length
        = (fi.requiredAttributes.filter
            fun a => !requiredValuePresent values a locale channel).length)
      ∧ (((validateProductValues values fi locale channel).errors = [])
        ↔ ∀ a ∈ fi.requiredAttributes,
            requiredValuePresent values a locale channel = true))
    ∧ (∀ (code typ : String) (req : Bool) (vr : Option String)
        (locale channel : String),
        missingFieldPath ⟨code, typ, req, false, false, vr⟩ locale channel
          = "common." ++ code
        ∧ missingFieldPath ⟨code, typ, req, true, false, vr⟩ locale channel
          = "locale_specific." ++ locale ++ "." ++ code
        ∧ missingFieldPath ⟨code, typ, req, false, true, vr⟩ locale channel
          = "channel_specific." ++ channel ++ "." ++ code
        ∧ missingFieldPath ⟨code, typ, req, true, true, vr⟩ locale channel
          = "channel_locale_specific." ++ channel ++ "." ++ locale ++ "." ++ code) := by
  constructor
  · intro values fi locale channel
    have he := validate_errors_eq values fi locale channel
    refine ⟨by rw [he]; simp, by rw [he]; simp, ?_⟩
    rw [he]
    simp [List.filter_eq_nil_iff]
  · intro code typ req vr locale channel
    exact ⟨rfl, rfl, rfl, rfl⟩

/-- C5 witness: a concrete tree missing one required channel-locale
attribute yields exactly the one expected error path. -/
theorem validate_one_error_per_missing_required_witness :
    (validateProductValues
        ⟨[("price", Value.num 5)], none, none, none, none, none⟩
        (categorizeFamilyAttributes "tshirt"
          [⟨"name", "text", true, true, true, none⟩,
           ⟨"price", "price", true, false, false, none⟩])
        "en_US" "default").errors.map FieldMessage.field
      = ["channel_locale_specific.default.en_US.name"] := by
  have h := (validate_one_error_per_missing_required.1
    ⟨[("price", Value.num 5)], none, none, none, none, none⟩
    (categorizeFamilyAttributes "tshirt"
      [⟨"name", "text", true, true, true, none⟩,
       ⟨"price", "price", true, false, false, none⟩])
    "en_US" "default").1
  rw [h]
  rfl

/-! ## C10 — presence-check asymmetry between scopes -/

/-- C10. The presence check of `validateProductValues` is asymmetric: a
required global attribute whose common-bag value is `null` or the empty
string counts as missing (and yields its error), while a required
locale-, channel- or channel-locale-scoped attribute counts as present —
yielding no error — as soon as its bag holds any value at all, `null`
and the empty string included. -/
theorem validate_required_presence_asymmetry :
    ∀ (values : ScopedValues) (a : AttributeMetadata) (locale channel : String),
    (a.value_per_locale = false → a.value_per_channel = false →
      (lookup values.common a.code = some Value.null
        ∨ lookup values.common a.code = some (Value.str "")) →
      requiredValuePresent values a locale channel = false
      ∧ requiredAttrError values a locale channel
          = some ⟨missingFieldPath a locale channel, missingMessage a locale channel⟩)
    ∧ (∀ v : Value, a.value_per_locale = true → a.value_per_channel = false →
        lookup2 (values.locale_specific.getD []) locale a.code = some v →
        requiredValuePresent values a locale channel = true
        ∧ requiredAttrError values a locale channel = none)
    ∧ (∀ v : Value, a.value_per_locale = false → a.value_per_channel = true →
        lookup2 (values.channel_specific.getD []) channel a.code = some v →
        requiredValuePresent values a locale channel = true
        ∧ requiredAttrError values a locale channel = none)
    ∧ (∀ v : Value, a.value_per_locale = true → a.value_per_channel = true →
        lookup3 (values.channel_locale_specific.getD []) channel locale a.code = some v →
        requiredValuePresent values a locale channel = true
        ∧ requiredAttrError values a locale channel = none)
    ∧ (∀ fi : FamilyAttributeInfo, a ∈ fi.requiredAttributes →
        requiredValuePresent values a locale channel = false →
        missingFieldPath a locale channel
          ∈ (validateProductValues values fi locale channel).errors.map
              FieldMessage.field) := by
  intro values a locale channel
  refine ⟨?_, ?_, ?_, ?_, ?_⟩
  · intro hl hc h
    have hp : requiredValuePresent values a locale channel = false := by
      rcases h with h | h <;> simp [requiredValuePresent, hl, hc, h]
    exact ⟨hp, by simp [requiredAttrError, hp]⟩
  · intro v hl hc h
    have hp : requiredValuePresent values a locale channel = true := by
      simp [requiredValuePresent, hl, hc, h]
    exact ⟨hp, by simp [requiredAttrError, hp]⟩
  · intro v hl hc h
    have hp : requiredValuePresent values a locale channel = true := by
      simp [requiredValuePresent, hl, hc, h]
    exact ⟨hp, by simp [requiredAttrError, hp]⟩
  · intro v hl hc h
    have hp : requiredValuePresent values a locale channel = true := by
      simp [requiredValuePresent, hl, hc, h]
    exact ⟨hp, by simp [requiredAttrError, hp]⟩
  · intro fi ha hp
    rw [validate_errors_eq]
    rw [List.map_map]
    refine List.mem_map.mpr ⟨a, List.mem_filter.mpr ⟨ha, by simp [hp]⟩, rfl⟩

/-- C10 witness: a `null` in the common bag for a required global
attribute is missing; a `null` in the locale bag for a required
locale-scoped attribute is present. -/
theorem validate_required_presence_asymmetry_witness :
    (requiredValuePresent
        ⟨[("desc", Value.null)], none, none, none, none, none⟩
        ⟨"desc", "text", true, false, false, none⟩ "en_US" "default" = false)
    ∧ (requiredValuePresent
        ⟨[], some [("en_US", [("name", Value.null)])], none, none, none, none⟩
        ⟨"name", "text", true, true, false, none⟩ "en_US" "default" = true) := by
  constructor
  · exact ((validate_required_presence_asymmetry
      ⟨[("desc", Value.null)], none, none, none, none, none⟩
      ⟨"desc", "text", true, false, false, none⟩ "en_US" "default").1
      rfl rfl (Or.inl rfl)).1
  · exact ((validate_required_presence_asymmetry
      ⟨[], some [("en_US", [("name", Value.null)])], none, none, none, none⟩
      ⟨"name", "text", true, true, false, none⟩ "en_US" "default").2.1
      Value.null rfl rfl rfl).1

/-! ## C6 — sku routing -/

/-- C6 counterexample. With `sku` itself classified locale-specific in
the family metadata, `structureProductValues` routes the sku value into
the locale bag (so `sku` is NOT exempt from scope routing), and a falsy
sku value (the empty string) is not placed into the global bag at all —
both contrary to the claim. -/
theorem sku_scope_exemption_cex :
    lookup2 ((structureProductValues [("sku", Value.str "A")]
        (categorizeFamilyAttributes "f" [⟨"sku", "text", true, true, false, none⟩])
        "en_US" "default").locale_specific.getD []) "en_US" "sku"
      = some (Value.str "A")
    ∧ lookup (structureProductValues [("sku", Value.str "")]
        (categorizeFamilyAttributes "f" [⟨"sku", "text", true, true, false, none⟩])
        "en_US" "default").common "sku"
      = none := by
  exact ⟨rfl, rfl⟩

/-- C6 amended. A truthy `sku` input value is always (additionally)
placed into the global bag, whatever its classification; but `sku` is
not exempt from scope routing — a locale-classified `sku` is also routed
into the locale bag — and a falsy `sku` is not forced into the global
bag. -/
theorem sku_truthy_forced_into_common :
    (∀ (rv : Obj) (fi : FamilyAttributeInfo) (locale channel : String) (v : Value),
      lookup rv "sku" = some v → v.truthy = true →
      lookup (structureProductValues rv fi locale channel).common "sku" = some v)
    ∧ (∀ (fi : FamilyAttributeInfo) (attr : AttributeMetadata) (v : Value)
        (locale channel : String),
        fi.attributes.find? (fun a => a.code == "sku") = some attr →
        attr.value_per_locale = true → attr.value_per_channel = false →
        lookup2
          ((structureProductValues [("sku", v)] fi locale channel).locale_specific.getD [])
          locale "sku" = some v) := by
  constructor
  · intro rv fi locale channel v h ht
    simp only [structureProductValues, h, ht, if_true]
    rw [lookup_setKey]
    simp
  · intro fi attr v locale channel hfind hl hc
    simp [structureProductValues, routeValues, routeStep, hfind, hl, hc,
      lookup2, lookup, setKey]

/-- C6 witness for the amended statement: a truthy locale-classified sku
lands in the common bag. -/
theorem sku_truthy_forced_into_common_witness :
    lookup (structureProductValues [("sku", Value.str "A")]
        (categorizeFamilyAttributes "f" [⟨"sku", "text", true, true, false, none⟩])
        "en_US" "default").common "sku" = some (Value.str "A") := by
  exact sku_truthy_forced_into_common.1 [("sku", Value.str "A")]
    (categorizeFamilyAttributes "f" [⟨"sku", "text", true, true, false, none⟩])
    "en_US" "default" (Value.str "A") rfl rfl

/-! ## C8 machinery — routing characterisation -/

theorem lookup_eq_none_of_not_mem_keys (o : Obj) (k : String)
    (h : k ∉ o.map Prod.fst) : lookup o k = none := by
  induction o with
  | nil => rfl
  | cons x xs ih =>
    simp only [List.map_cons, List.mem_cons, not_or] at h
    have hx : (x.1 == k) = false := by
      cases hb : (x.1 == k) with
      | false => rfl
      | true => exact absurd (beq_iff_eq.mp hb) (fun hh => h.1 hh.symm)
    rw [lookup_cons_skip hx]
    exact ih h.2

theorem bag_routeStep_self (attributes : List AttributeMetadata) (acc : RouteAcc)
    (k : String) (v : Value) (s : Scope) :
    lookup ((routeStep attributes acc k v).bag s) k
      = if routeTargetScope attributes k = some s then some v
        else lookup (acc.bag s) k := by
  by_cases hres : (k == "categories" || k == "associations") = true
  · simp [routeStep, routeTargetScope, hres]
  · have hres' : (k == "categories" || k == "associations") = false := by
      cases hb : (k == "categories" || k == "associations") with
      | false => rfl
      | true => exact absurd hb hres
    cases hf : attributes.find? (fun a => a.code == k) with
    | none =>
        cases s <;>
          simp [routeStep, routeTargetScope, hres', hf, RouteAcc.bag, lookup_setKey]
    | some attr =>
        cases hl : attr.value_per_locale <;> cases hc : attr.value_per_channel <;>
          cases s <;>
          simp [routeStep, routeTargetScope, hres', hf, hl, hc, RouteAcc.bag,
            lookup_setKey]

theorem bag_routeStep_other (attributes : List AttributeMetadata) (acc : RouteAcc)
    (k k' : String) (v : Value) (s : Scope) (hne : k' ≠ k) :
    lookup ((routeStep attributes acc k v).bag s) k' = lookup (acc.bag s) k' := by
  by_cases hres : (k == "categories" || k == "associations") = true
  · simp [routeStep, hres]
  · have hres' : (k == "categories" || k == "associations") = false := by
      cases hb : (k == "categories" || k == "associations") with
      | false => rfl
      | true => exact absurd hb hres
    cases hf : attributes.find? (fun a => a.code == k) with
    | none =>
        cases s <;> simp [routeStep, hres', hf, RouteAcc.bag, lookup_setKey, hne]
    | some attr =>
        cases hl : attr.value_per_locale <;> cases hc : attr.value_per_channel <;>
          cases s <;>
          simp [routeStep, hres', hf, hl, hc, RouteAcc.bag, lookup_setKey, hne]

theorem bag_routeValues (attributes : List AttributeMetadata) (k : String)
    (s : Scope) :
    ∀ (rv : Obj) (acc : RouteAcc), (rv.map Prod.fst).Nodup →
    lookup ((routeValues attributes acc rv).bag s) k
      = match lookup rv k with
        | some v =>
            if routeTargetScope attributes k = some s then some v
            else lookup (acc.bag s) k
        | none => lookup (acc.bag s) k := by
  intro rv
  induction rv with
  | nil =>
      intro acc _
      simp [routeValues, lookup]
  | cons x rest ih =>
      intro acc hnd
      simp only [List.map_cons, List.nodup_cons] at hnd
      rw [show routeValues attributes acc (x :: rest)
        = routeValues attributes (routeStep attributes acc x.1 x.2) rest from rfl]
      by_cases hk : x.1 = k
      · have hxk : (x.1 == k) = true := beq_iff_eq.mpr hk
        rw [lookup_cons_match hxk]
        have hrest : lookup rest k = none := by
          apply lookup_eq_none_of_not_mem_keys
          rw [← hk]
          exact hnd.1
        rw [ih (routeStep attributes acc x.1 x.2) hnd.2, hrest]
        rw [hk] at *
        exact bag_routeStep_self attributes acc k x.2 s
      · have hxk : (x.1 == k) = false := by
          cases hb : (x.1 == k) with
          | false => rfl
          | true => exact absurd (beq_iff_eq.mp hb) hk
        rw [lookup_cons_skip hxk]
        rw [ih (routeStep attributes acc x.1 x.2) hnd.2]
        have hother := bag_routeStep_other attributes acc x.1 k x.2 s
          (fun hh => hk hh.symm)
        cases hlr : lookup rest k with
        | none => simpa [hlr] using hother
        | some v =>
            simp only [hlr]
            by_cases ht : routeTargetScope attributes k = some s
            · simp [ht]
            · simp [ht, hother]

theorem lookup2_conditional_single (bag : Obj) (l k : String) :
    lookup2 ((if bag.length > 0 then some [(l, bag)] else none).getD []) l k
      = lookup bag k := by
  by_cases hb : bag.length > 0
  · rw [if_pos hb]
    simp [lookup2]
  · have hnil : bag = [] := by
      cases bag with
      | nil => rfl
      | cons y ys => simp at hb
    rw [if_neg hb, hnil]
    rfl

theorem lookup3_conditional_single (bag : Obj) (c l k : String) :
    lookup3 ((if bag.length > 0 then some [(c, [(l, bag)])] else none).getD []) c l k
      = lookup bag k := by
  by_cases hb : bag.length > 0
  · rw [if_pos hb]
    simp [lookup3, lookup2]
  · have hnil : bag = [] := by
      cases bag with
      | nil => rfl
      | cons y ys => simp at hb
    rw [if_neg hb, hnil]
    rfl

/-- The four bags of the tree built by `structureProductValues`, read
back through the lookups that `validateProductValues` and the
round-trip inverse use, expressed over the routing accumulator. -/
theorem structure_bags (rv : Obj) (fi : FamilyAttributeInfo)
    (locale channel : String) :
    ((structureProductValues rv fi locale channel).common
       = match lookup rv "sku" with
         | some v =>
             if v.truthy then
               setKey (routeValues fi.attributes {} rv).common "sku" v
             else (routeValues fi.attributes {} rv).common
         | none => (routeValues fi.attributes {} rv).common)
    ∧ (∀ k, lookup2
        ((structureProductValues rv fi locale channel).locale_specific.getD [])
        locale k
      = lookup (routeValues fi.attributes {} rv).localeBag k)
    ∧ (∀ k, lookup2
        ((structureProductValues rv fi locale channel).channel_specific.getD [])
        channel k
      = lookup (routeValues fi.attributes {} rv).channelBag k)
    ∧ (∀ k, lookup3
        ((structureProductValues rv fi locale channel).channel_locale_specific.getD [])
        channel locale k
      = lookup (routeValues fi.attributes {} rv).channelLocaleBag k) := by
  refine ⟨rfl, ?_, ?_, ?_⟩
  · intro k
    exact lookup2_conditional_single (routeValues fi.attributes {} rv).localeBag locale k
  · intro k
    exact lookup2_conditional_single (routeValues fi.attributes {} rv).channelBag channel k
  · intro k
    exact lookup3_conditional_single (routeValues fi.attributes {} rv).channelLocaleBag
      channel locale k

/-! ## C8 — round-trip of structuring and flattening -/

/-- C8 counterexample. The reserved key `categories` is skipped by the
routing loop and passed through outside the four bags even when the
family metadata classifies an attribute of that very code, so flattening
does not recover it although it has a known classification. -/
theorem structure_roundtrip_cex :
    flattenScoped
        (structureProductValues [("categories", Value.str "x")]
          (categorizeFamilyAttributes "f"
            [⟨"categories", "text", false, false, false, none⟩])
          "en_US" "default") "en_US" "default" "categories"
      = none
    ∧ lookup [("categories", Value.str "x")] "categories" = some (Value.str "x")
    ∧ ((categorizeFamilyAttributes "f"
          [⟨"categories", "text", false, false, false, none⟩]).attributes.find?
          (fun a => a.code == "categories")).isSome = true := by
  exact ⟨rfl, rfl, rfl⟩

/-- C8 amended. For a flat input map (unique keys, as JavaScript objects
have) and any key with a known classification in the family info other
than the reserved pass-through keys `categories` and `associations`,
structuring followed by the flattening inverse (union of the global bag,
the locale bag at the given locale, the channel bag at the given channel
and the channel-locale bag at both) recovers exactly the original value
of that key. -/
theorem structure_roundtrip_known_keys :
    ∀ (rv : Obj) (fi : FamilyAttributeInfo) (locale channel k : String),
    (rv.map Prod.fst).Nodup →
    (fi.attributes.find? (fun a => a.code == k)).isSome = true →
    k ≠ "categories" → k ≠ "associations" →
    flattenScoped (structureProductValues rv fi locale channel) locale channel k
      = lookup rv k := by
  intro rv fi locale channel k hnd hfs hkc hka
  have hkcb : (k == "categories") = false := by
    cases hb : (k == "categories") with
    | false => rfl
    | true => exact absurd (beq_iff_eq.mp hb) hkc
  have hkab : (k == "associations") = false := by
    cases hb : (k == "associations") with
    | false => rfl
    | true => exact absurd (beq_iff_eq.mp hb) hka
  have hres : (k == "categories" || k == "associations") = false := by
    rw [hkcb, hkab]
    rfl
  obtain ⟨s₀, hs₀⟩ : ∃ s, routeTargetScope fi.attributes k = some s := by
    unfold routeTargetScope
    rw [hres]
    simp
  have hbag : ∀ s : Scope, lookup ((routeValues fi.attributes {} rv).bag s) k
      = match lookup rv k with
        | some v => if s₀ = s then some v else none
        | none => none := by
    intro s
    have h := bag_routeValues fi.attributes k s rv {} hnd
    have hacc : lookup (RouteAcc.bag {} s) k = none := by
      cases s <;> rfl
    simp only [hacc] at h
    rw [hs₀] at h
    simp only [Option.some.injEq] at h
    exact h
  have hbagc := hbag Scope.common
  have hbagl := hbag Scope.localeScope
  have hbagch := hbag Scope.channelScope
  have hbagcl := hbag Scope.channelLocaleScope
  simp only [RouteAcc.bag] at hbagc hbagl hbagch hbagcl
  obtain ⟨hcom, hloc, hchan, hcl⟩ := structure_bags rv fi locale channel
  have h1 : lookup (structureProductValues rv fi locale channel).common k
      = match lookup rv k with
        | some v =>
            if s₀ = Scope.common ∨ (k = "sku" ∧ v.truthy = true) then some v
            else none
        | none => none := by
    rw [hcom]
    by_cases hk : k = "sku"
    · subst hk
      cases hsku : lookup rv "sku" with
      | none => simp only [hsku, hbagc]
      | some v =>
          by_cases htr : v.truthy = true
          · simp only [hsku, htr, if_true, lookup_setKey, if_pos rfl]
            simp [htr]
          · have htr' : v.truthy = false := by
              cases hb : v.truthy with
              | false => rfl
              | true => exact absurd hb htr
            simp only [hsku, htr', Bool.false_eq_true, if_false, hbagc]
            simp [htr']
    · cases hsku : lookup rv "sku" with
      | none =>
          simp only [hsku, hbagc]
          cases hv : lookup rv k with
          | none => rfl
          | some v => simp [hk]
      | some w =>
          by_cases htr : w.truthy = true
          · simp only [hsku, htr, if_true, lookup_setKey, if_neg hk, hbagc]
            cases hv : lookup rv k with
            | none => rfl
            | some v => simp [hk]
          · have htr' : w.truthy = false := by
              cases hb : w.truthy with
              | false => rfl
              | true => exact absurd hb htr
            simp only [hsku, htr', Bool.false_eq_true, if_false, hbagc]
            cases hv : lookup rv k with
            | none => rfl
            | some v => simp [hk]
  have h2 := (hloc k).trans hbagl
  have h3 := (hchan k).trans hbagch
  have h4 := (hcl k).trans hbagcl
  unfold flattenScoped
  rw [h1, h2, h3, h4]
  cases hv : lookup rv k with
  | none => rfl
  | some v =>
      by_cases hc0 : s₀ = Scope.common ∨ (k = "sku" ∧ v.truthy = true)
      · simp [hc0]
      · have hs : ¬ s₀ = Scope.common := fun h => hc0 (Or.inl h)
        cases s₀ with
        | common => exact absurd rfl hs
        | localeScope =>
            by_cases hsk : k = "sku" ∧ v.truthy = true <;> simp [hc0, hsk]
        | channelScope =>
            by_cases hsk : k = "sku" ∧ v.truthy = true <;> simp [hc0, hsk]
        | channelLocaleScope =>
            by_cases hsk : k = "sku" ∧ v.truthy = true <;> simp [hc0, hsk]
/-- C8 witness for the amended statement: a two-attribute family and a
two-key input round-trip exactly. -/
theorem structure_roundtrip_known_keys_witness :
    flattenScoped
        (structureProductValues [("name", Value.str "x"), ("price", Value.num 5)]
          (categorizeFamilyAttributes "f"
            [⟨"name", "text", true, true, true, none⟩,
             ⟨"price", "price", true, false, false, none⟩])
          "en_US" "default") "en_US" "default" "name"
      = some (Value.str "x") := by
  have h := structure_roundtrip_known_keys
    [("name", Value.str "x"), ("price", Value.num 5)]
    (categorizeFamilyAttributes "f"
      [⟨"name", "text", true, true, true, none⟩,
       ⟨"price", "price", true, false, false, none⟩])
    "en_US" "default" "name" (by decide) rfl (by decide) (by decide)
  exact h.trans rfl

/-! ## C3 — request retry budget on 500s -/

/-- C3. The request executor makes at most 3 attempts: responses
[500, 500, 200] yield the parsed 200 body with no error after exactly 3
attempts, and [500, 500, 500] yield the `SERVER_ERROR`-classified
(retry-eligible) error after exactly 3 attempts — whatever further
responses would have followed, no 4th attempt observes them. -/
theorem request_retry_budget :
    (∀ (d1 d2 : Option Nat) (b : Nat) (rest : List AttemptEvent),
      request (.response 500 d1 :: .response 500 d2 :: .response 200 (some b) :: rest)
        = ⟨.ok (some b), 0, 3⟩)
    ∧ (∀ (d1 d2 d3 : Option Nat) (rest : List AttemptEvent),
      request (.response 500 d1 :: .response 500 d2 :: .response 500 d3 :: rest)
        = ⟨.error (.apiError .SERVER_ERROR true (some 500)), 0, 3⟩) := by
  constructor
  · intro d1 d2 b rest
    rfl
  · intro d1 d2 d3 rest
    rfl

/-! ## C4 — 401 then 200 recovery -/

/-- C4. A 401 on the first attempt followed by a 200 on the second makes
the call succeed with the parsed 200 body after exactly 2 attempts, with
exactly one `clearCache()` (invalidate) call on the token manager. -/
theorem request_401_recovery :
    ∀ (d : Option Nat) (b : Nat) (rest : List AttemptEvent),
      request (.response 401 d :: .response 200 (some b) :: rest)
        = ⟨.ok (some b), 1, 2⟩ := by
  intro d b rest
  rfl

/-! ## C7 — classified errors at the boundary -/

/-- C7 counterexample. The multipart path rethrows the raw `fetch`
rejection unwrapped when the final attempt fails: the error crossing the
boundary is not a classified `UnoPimApiError`. -/
theorem multipart_raw_error_cex :
    postMultipart [.fetchReject 7, .fetchReject 7, .fetchReject 7]
        = ⟨.error (.rawFetchError 7), 0, 3⟩
    ∧ Thrown.isClassified (.rawFetchError 7) = false := by
  exact ⟨rfl, rfl⟩

theorem fromResponse_isClassified (status : Nat) :
    (fromResponse status).isClassified = true := by
  unfold fromResponse
  split_ifs <;> rfl

theorem requestStep_classified (e : AttemptEvent) (attempt : Nat) (t : Thrown)
    (h : requestStep e attempt = .done (.error t)) : t.isClassified = true := by
  cases e <;> simp only [requestStep] at h <;> repeat' split at h
  all_goals try simp_all [fromResponse_isClassified, networkError, Thrown.isClassified]
  all_goals rw [← h]
  all_goals exact fromResponse_isClassified _

/-- C7 amended. The generic JSON path (`request`) always crosses the
boundary with either a parsed success or a single classified
`UnoPimApiError`, for every possible sequence of attempt events; the
multipart path (`postMultipart`) does not share this guarantee — it can
rethrow an unclassified raw error. -/
theorem request_errors_classified :
    ∀ (events : List AttemptEvent),
      (match (request events).result with
        | .ok _ => True
        | .error e => e.isClassified = true) := by
  have hloop : ∀ (events : List AttemptEvent) (attempt clears : Nat),
      (match (requestLoop events attempt clears).result with
        | .ok _ => True
        | .error e => e.isClassified = true) := by
    intro events
    induction events with
    | nil =>
        intro attempt clears
        exact rfl
    | cons e rest ih =>
        intro attempt clears
        rw [requestLoop]
        by_cases hatt : attempt < MAX_RETRIES
        · rw [if_pos hatt]
          cases hstep : requestStep e attempt with
          | retry cleared => exact ih (attempt + 1) (clears + if cleared then 1 else 0)
          | done r =>
              cases r with
              | ok b => trivial
              | error t => exact requestStep_classified e attempt t hstep
        · rw [if_neg hatt]
          exact rfl
  intro events
  exact hloop events 0 0

/-! ## C2 — near-expiry token handling (code bug) -/

/-- C2 (bug evidence). A cached token 4 minutes before expiry — inside
the 5-minute refresh buffer but still unexpired — is returned as-is with
zero token-endpoint fetches and an unchanged cache, even though a
successful refresh is available: `getAccessToken` checks `isTokenValid`
(now < expires_at) before `shouldRefresh`, so the proactive-refresh
branch is unreachable for any unexpired token, contradicting the
source's own "Refresh token 5 minutes before expiry" comment. -/
theorem getAccessToken_buffered_no_refresh :
    getAccessToken (some ⟨"cached-token", "refresh-tok", 300000⟩) 60000
        ⟨[.success ⟨"new-token", "new-refresh", 3600⟩],
         [.success ⟨"new-token", "new-refresh", 3600⟩]⟩
      = ⟨.ok "cached-token", some ⟨"cached-token", "refresh-tok", 300000⟩, 0⟩
    ∧ shouldRefresh (some ⟨"cached-token", "refresh-tok", 300000⟩) 60000 = true
    ∧ isTokenValid (some ⟨"cached-token", "refresh-tok", 300000⟩) 60000 = true := by
  exact ⟨rfl, rfl, rfl⟩

/-! ## C9 — token-endpoint retry schedule -/

/-- C9 counterexample. After three failed token-endpoint attempts,
`acquireToken` throws a plain `Error` — not an `AUTH_FAILED`-classified
`UnoPimApiError` as the claim states. -/
theorem acquire_authfailed_cex :
    (tokenRequestLoop acquireFailMsg [.failure, .failure, .failure] 0 0 []).result
        = .error (.plainError acquireFailMsg)
    ∧ Thrown.isAuthFailed (.plainError acquireFailMsg) = false := by
  exact ⟨rfl, rfl⟩

/-- C9 amended. Token acquisition and refresh each make up to 3 attempts
against the token endpoint, sleeping 1s before the 2nd and 3s before the
3rd attempt (no delay before the 1st) whatever the failures are; after
the 3rd failed attempt the call fails with a plain unclassified `Error`
carrying the fixed failure message, and `getAccessToken` propagates that
error without further retries (exactly 3 fetches in total). -/
theorem token_retry_schedule :
    ∀ (rest : List TokenAttempt) (now : Int) (refreshAtt : List TokenAttempt),
      tokenRequestLoop acquireFailMsg (.failure :: .failure :: .failure :: rest) 0 0 []
        = ⟨.error (.plainError acquireFailMsg), 3, [1000, 3000]⟩
      ∧ tokenRequestLoop refreshFailMsg (.failure :: .failure :: .failure :: rest) 0 0 []
        = ⟨.error (.plainError refreshFailMsg), 3, [1000, 3000]⟩
      ∧ getAccessToken none now ⟨refreshAtt, .failure :: .failure :: .failure :: rest⟩
        = ⟨.error (.plainError acquireFailMsg), none, 3⟩ := by
  intro rest now refreshAtt
  exact ⟨rfl, rfl, rfl⟩

end UnoPim
